import Mathlib

/-!
Shallow embedding of the crypto portfolio tracker (React Native / Redux / redux-saga).

JavaScript numbers are modelled as rationals (ℚ), strings as Lean strings.
Redux slices become pure state-transition functions (the reducers), and each
saga worker becomes a function from its inputs and the current root state to
the new root state together with the list of AsyncStorage writes it performed.
A Boolean parameter models whether an AsyncStorage setItem call succeeds
(true) or throws (false).  The JSON text layer of AsyncStorage is modelled
structurally: the store holds parsed Json values, since JSON.stringify and
JSON.parse belong to the host runtime, not to this repository.
-/

namespace CryptoTracker

/-- Coin record as parsed from the CoinGecko response (cryptoSlice.ts). -/
structure Coin where
  id : String
  name : String
  symbol : String
  image : String
  current_price : ℚ
  price_change_percentage_24h : ℚ
  market_cap : ℚ
  deriving DecidableEq, Repr

/-- Portfolio item (portfolioSlice.ts). -/
structure PortfolioItem where
  coinId : String
  name : String
  symbol : String
  image : String
  quantity : ℚ
  currentPrice : ℚ
  value : ℚ
  deriving DecidableEq, Repr

/-- Auth slice state (authSlice.ts). -/
structure AuthState where
  isAuthenticated : Bool
  token : Option String
  loading : Bool
  error : Option String
  deriving DecidableEq, Repr

/-- Crypto slice state (cryptoSlice.ts); the per-coin refreshing map is omitted
as no claim concerns it. -/
structure CryptoState where
  coins : List Coin
  loading : Bool
  error : Option String
  lastUpdated : Option Nat
  deriving DecidableEq, Repr

/-- Portfolio slice state (portfolioSlice.ts). -/
structure PortfolioState where
  items : List PortfolioItem
  loading : Bool
  error : Option String
  deriving DecidableEq, Repr

/-- Combined redux root state (store.ts). -/
structure RootState where
  auth : AuthState
  crypto : CryptoState
  portfolio : PortfolioState
  deriving DecidableEq, Repr

def initialAuthState : AuthState :=
  { isAuthenticated := false, token := none, loading := false, error := none }

def initialCryptoState : CryptoState :=
  { coins := [], loading := false, error := none, lastUpdated := none }

def initialPortfolioState : PortfolioState :=
  { items := [], loading := false, error := none }

def initialRootState : RootState :=
  { auth := initialAuthState, crypto := initialCryptoState,
    portfolio := initialPortfolioState }

/-! ## Reducers (pure state transitions of the slices) -/

/-- Reducer loginSuccess of authSlice.ts. -/
def loginSuccess (token : String) (s : AuthState) : AuthState :=
  { s with
    loading := false, isAuthenticated := true, token := some token,
    error := none }

/-- Reducer loginFailure of authSlice.ts. -/
def loginFailure (msg : String) (s : AuthState) : AuthState :=
  { s with
    loading := false, isAuthenticated := false, token := none,
    error := some msg }

/-- Reducer loginRequest of authSlice.ts. -/
def loginRequest (s : AuthState) : AuthState :=
  { s with loading := true, error := none }

/-- Replaces the first element satisfying p by x, leaving the rest unchanged;
this renders the findIndex-then-assign idiom of the TypeScript source. -/
def setFirst (p : PortfolioItem → Bool) (x : PortfolioItem) :
    List PortfolioItem → List PortfolioItem
  | [] => []
  | y :: rest => if p y then x :: rest else y :: setFirst p x rest

/-- Reducer addToPortfolioRequest of portfolioSlice.ts. -/
def addToPortfolioRequest (s : PortfolioState) : PortfolioState :=
  { s with loading := true, error := none }

/-- Reducer addToPortfolioSuccess of portfolioSlice.ts: replaces the first
item with the payload's coinId if one exists, otherwise pushes the payload. -/
def addToPortfolioSuccess (payload : PortfolioItem) (s : PortfolioState) :
    PortfolioState :=
  let p := fun item : PortfolioItem => item.coinId = payload.coinId
  { s with
    loading := false, error := none,
    items := if (s.items.find? p).isSome then setFirst p payload s.items
             else s.items ++ [payload] }

/-- Reducer updatePortfolioItemRequest of portfolioSlice.ts. -/
def updatePortfolioItemRequest (s : PortfolioState) : PortfolioState :=
  { s with loading := true, error := none }

/-- Reducer updatePortfolioItemSuccess of portfolioSlice.ts: replaces the
first item with the payload's coinId if present, otherwise leaves items
unchanged. -/
def updatePortfolioItemSuccess (payload : PortfolioItem) (s : PortfolioState) :
    PortfolioState :=
  let p := fun item : PortfolioItem => item.coinId = payload.coinId
  { s with
    loading := false, error := none,
    items := if (s.items.find? p).isSome then setFirst p payload s.items
             else s.items }

/-- Reducer removeFromPortfolio of portfolioSlice.ts. -/
def removeFromPortfolio (coinId : String) (s : PortfolioState) : PortfolioState :=
  { s with items := s.items.filter (fun item => item.coinId ≠ coinId) }

/-- Price map built by fetchCryptoDataSaga: a JavaScript object keyed by coin
id.  objSet models property assignment (overwrite if the key exists, append
otherwise), objGet models property lookup. -/
def objSet : List (String × ℚ) → String → ℚ → List (String × ℚ)
  | [], k, v => [(k, v)]
  | kv :: rest, k, v =>
    if kv.1 = k then (k, v) :: rest else kv :: objSet rest k v

def objGet (m : List (String × ℚ)) (k : String) : Option ℚ :=
  (m.find? (fun kv => kv.1 = k)).map (fun kv => kv.2)

/-- Reducer updatePortfolioPrices of portfolioSlice.ts. -/
def updatePortfolioPrices (priceMap : List (String × ℚ)) (s : PortfolioState) :
    PortfolioState :=
  { s with items := s.items.map (fun item =>
      match objGet priceMap item.coinId with
      | some newPrice =>
        { item with currentPrice := newPrice, value := item.quantity * newPrice }
      | none => item) }

/-- Reducer portfolioFailure of portfolioSlice.ts. -/
def portfolioFailure (msg : String) (s : PortfolioState) : PortfolioState :=
  { s with loading := false, error := some msg }

/-- Reducer loadPortfolioFromStorage of portfolioSlice.ts. -/
def loadPortfolioFromStorage (items : List PortfolioItem) (s : PortfolioState) :
    PortfolioState :=
  { s with items := items }

/-- Reducer fetchCryptoDataRequest of cryptoSlice.ts. -/
def fetchCryptoDataRequest (s : CryptoState) : CryptoState :=
  { s with loading := true, error := none }

/-- Reducer fetchCryptoDataSuccess of cryptoSlice.ts. -/
def fetchCryptoDataSuccess (coins : List Coin) (now : Nat) (s : CryptoState) :
    CryptoState :=
  { s with
    loading := false, coins := coins, lastUpdated := some now,
    error := none }

/-- Reducer fetchCryptoDataFailure of cryptoSlice.ts. -/
def fetchCryptoDataFailure (msg : String) (s : CryptoState) : CryptoState :=
  { s with loading := false, error := some msg }

/-! ## JSON values and AsyncStorage

AsyncStorage stores the portfolio under the key "portfolio" as
JSON.stringify(items) and the auth token under "authToken" as a plain string.
The JSON text layer (stringify/parse) is the host runtime's; it is modelled
structurally by a Json value type, with the repository-level encoding of
portfolio items into Json made explicit. -/

inductive Json where
  | str : String → Json
  | num : ℚ → Json
  | arr : List Json → Json
  | obj : List (String × Json) → Json
  | nul : Json

/-- Structural image of JSON.stringify on one PortfolioItem. -/
def itemToJson (item : PortfolioItem) : Json :=
  Json.obj [("coinId", Json.str item.coinId), ("name", Json.str item.name),
    ("symbol", Json.str item.symbol), ("image", Json.str item.image),
    ("quantity", Json.num item.quantity),
    ("currentPrice", Json.num item.currentPrice),
    ("value", Json.num item.value)]

/-- Structural image of JSON.stringify on the item array. -/
def itemsToJson (items : List PortfolioItem) : Json :=
  Json.arr (items.map itemToJson)

/-- Reads a string field of a parsed JSON object, as the TypeScript code does
after the unchecked cast of JSON.parse's result to PortfolioItem[]. -/
def jsonField : Json → String → Option Json
  | Json.obj fields, k => (fields.find? (fun kv => kv.1 = k)).map (fun kv => kv.2)
  | _, _ => none

def jsonAsStr : Option Json → Option String
  | some (Json.str s) => some s
  | _ => none

def jsonAsNum : Option Json → Option ℚ
  | some (Json.num q) => some q
  | _ => none

/-- Typed read-back of one portfolio item from its parsed JSON form. -/
def itemFromJson (j : Json) : Option PortfolioItem := do
  let coinId ← jsonAsStr (jsonField j "coinId")
  let name ← jsonAsStr (jsonField j "name")
  let symbol ← jsonAsStr (jsonField j "symbol")
  let image ← jsonAsStr (jsonField j "image")
  let quantity ← jsonAsNum (jsonField j "quantity")
  let currentPrice ← jsonAsNum (jsonField j "currentPrice")
  let value ← jsonAsNum (jsonField j "value")
  pure { coinId := coinId, name := name, symbol := symbol, image := image,
         quantity := quantity, currentPrice := currentPrice, value := value }

/-- Typed read-back of a list of parsed items, element by element. -/
def itemsFromJsonList : List Json → Option (List PortfolioItem)
  | [] => some []
  | j :: rest => do
    let item ← itemFromJson j
    let items ← itemsFromJsonList rest
    pure (item :: items)

/-- Typed read-back of the stored item array. -/
def itemsFromJson : Json → Option (List PortfolioItem)
  | Json.arr js => itemsFromJsonList js
  | _ => none

/-- The on-device AsyncStorage contents for the two keys this app uses. -/
structure Storage where
  authToken : Option String
  portfolio : Option Json

def initialStorage : Storage := { authToken := none, portfolio := none }

/-- One successful AsyncStorage mutation performed by a saga. -/
inductive StorageOp where
  | setAuthToken : String → StorageOp
  | setPortfolio : Json → StorageOp
  | removeAuthToken : StorageOp

def applyStorageOp (storage : Storage) : StorageOp → Storage
  | StorageOp.setAuthToken t => { storage with authToken := some t }
  | StorageOp.setPortfolio j => { storage with portfolio := some j }
  | StorageOp.removeAuthToken => { storage with authToken := none }

def applyStorageOps (storage : Storage) (ops : List StorageOp) : Storage :=
  ops.foldl applyStorageOp storage

/-! ## Auth saga (authSaga.ts) -/

def HARDCODED_USERNAME : String := "admin"
def HARDCODED_PASSWORD : String := "admin123"

/-- Credential check and token generation of authenticateUser; now models
Date.now().  Throwing is modelled by Except.error with the thrown message. -/
def authenticateUser (username password : String) (now : Nat) :
    Except String String :=
  if username = HARDCODED_USERNAME ∧ password = HARDCODED_PASSWORD then
    Except.ok ("dummy_token_" ++ toString now)
  else
    Except.error "Invalid username or password"

/-- Worker loginSaga: authenticate, write the token to AsyncStorage, then
dispatch loginSuccess; any thrown error is caught and dispatched as
loginFailure.  storeOk tells whether the AsyncStorage.setItem call succeeds;
the returned list holds the successful storage writes. -/
def loginSaga (username password : String) (now : Nat) (storeOk : Bool)
    (s : AuthState) : AuthState × List StorageOp :=
  match authenticateUser username password now with
  | Except.error msg => (loginFailure msg s, [])
  | Except.ok token =>
    if storeOk then (loginSuccess token s, [StorageOp.setAuthToken token])
    else (loginFailure "Login failed" s, [])

/-! ## Portfolio sagas (portfolioSaga.ts) -/

/-- Worker addToPortfolioSaga.  Mirrors the source: build the item from the
coin and quantity, replace-or-append in a local copy of the current items,
save that list to AsyncStorage, then dispatch addToPortfolioSuccess; a save
failure is caught and dispatched as portfolioFailure. -/
def addToPortfolioSaga (coin : Coin) (quantity : ℚ) (storeOk : Bool)
    (s : RootState) : RootState × List StorageOp :=
  let value := coin.current_price * quantity
  let portfolioItem : PortfolioItem :=
    { coinId := coin.id, name := coin.name, symbol := coin.symbol,
      image := coin.image, quantity := quantity,
      currentPrice := coin.current_price, value := value }
  let currentItems := s.portfolio.items
  let p := fun item : PortfolioItem => item.coinId = coin.id
  let updatedItems :=
    if (currentItems.find? p).isSome then setFirst p portfolioItem currentItems
    else currentItems ++ [portfolioItem]
  if storeOk then
    ({ s with portfolio := addToPortfolioSuccess portfolioItem s.portfolio },
     [StorageOp.setPortfolio (itemsToJson updatedItems)])
  else
    ({ s with portfolio :=
        portfolioFailure "Failed to save portfolio to AsyncStorage" s.portfolio },
     [])

/-- Worker updatePortfolioItemSaga.  quantity is the new total quantity (the
caller, not this saga, adds the delta).  Mirrors the source: find the item
(else throw), find the coin in crypto state (else throw), rebuild the item
with the coin's current price, save, then dispatch
updatePortfolioItemSuccess; any throw is caught as portfolioFailure. -/
def updatePortfolioItemSaga (coinId : String) (quantity : ℚ) (storeOk : Bool)
    (s : RootState) : RootState × List StorageOp :=
  let currentItems := s.portfolio.items
  match currentItems.find? (fun item => item.coinId = coinId) with
  | none =>
    ({ s with portfolio := portfolioFailure "Portfolio item not found" s.portfolio },
     [])
  | some item =>
    match s.crypto.coins.find? (fun c => c.id = coinId) with
    | none =>
      ({ s with portfolio :=
          portfolioFailure "Coin not found in crypto data" s.portfolio }, [])
    | some coin =>
      let updatedItem : PortfolioItem :=
        { item with
          quantity := quantity, currentPrice := coin.current_price,
          value := coin.current_price * quantity }
      let updatedItems :=
        setFirst (fun it => it.coinId = coinId) updatedItem currentItems
      if storeOk then
        ({ s with portfolio := updatePortfolioItemSuccess updatedItem s.portfolio },
         [StorageOp.setPortfolio (itemsToJson updatedItems)])
      else
        ({ s with portfolio :=
            portfolioFailure "Failed to save portfolio to AsyncStorage" s.portfolio },
         [])

/-- Worker removeFromPortfolioSaga: reads the (already filtered) items,
filters again, and saves; a save failure is only logged, never surfaced. -/
def removeFromPortfolioSaga (coinId : String) (storeOk : Bool) (s : RootState) :
    RootState × List StorageOp :=
  let updatedItems := s.portfolio.items.filter (fun item => item.coinId ≠ coinId)
  if storeOk then (s, [StorageOp.setPortfolio (itemsToJson updatedItems)])
  else (s, [])

/-- Worker loadPortfolioFromStorageSaga: read the stored value, parse it
(absent ⇒ empty list), and dispatch loadPortfolioFromStorage. -/
def loadPortfolioFromStorageSaga (storage : Storage) (s : RootState) : RootState :=
  let items := (storage.portfolio.bind itemsFromJson).getD []
  { s with portfolio := loadPortfolioFromStorage items s.portfolio }

/-! ## Crypto saga (cryptoSaga.ts) -/

/-- Outcome of the fetch call to the CoinGecko endpoint, as seen by
fetchCryptoData: a 2xx response with a parsed coin array, a non-2xx response
with its statusText, or a transport error thrown by fetch itself. -/
inductive FetchOutcome where
  | success : List Coin → FetchOutcome
  | httpError : String → FetchOutcome
  | transportError : String → FetchOutcome

/-- fetchCryptoData: throws on a non-2xx response with a message built from
statusText, propagates transport errors, returns the parsed body on 2xx. -/
def fetchCryptoData : FetchOutcome → Except String (List Coin)
  | FetchOutcome.success coins => Except.ok coins
  | FetchOutcome.httpError statusText =>
    Except.error ("Failed to fetch crypto data: " ++ statusText)
  | FetchOutcome.transportError msg => Except.error msg

/-- Price map built by fetchCryptoDataSaga from the fetched coins, by
JavaScript object assignment per coin. -/
def buildPriceMap (coins : List Coin) : List (String × ℚ) :=
  coins.foldl (fun m c => objSet m c.id c.current_price) []

/-- Worker fetchCryptoDataSaga: on success dispatch fetchCryptoDataSuccess,
then, when the portfolio is non-empty, dispatch updatePortfolioPrices with
the price map; on a thrown error dispatch fetchCryptoDataFailure. -/
def fetchCryptoDataSaga (outcome : FetchOutcome) (now : Nat) (s : RootState) :
    RootState :=
  match fetchCryptoData outcome with
  | Except.error msg => { s with crypto := fetchCryptoDataFailure msg s.crypto }
  | Except.ok coins =>
    let s1 := { s with crypto := fetchCryptoDataSuccess coins now s.crypto }
    if s1.portfolio.items.length > 0 then
      { s1 with portfolio :=
          updatePortfolioPrices (buildPriceMap coins) s1.portfolio }
    else s1

/-! ## Dispatched operations

Dispatching a request action first runs its reducer, then the watching saga
runs the worker; these composites are the user-facing operations. -/

/-- Dispatch of addToPortfolioRequest followed by the add saga. -/
def addOp (coin : Coin) (quantity : ℚ) (storeOk : Bool) (s : RootState) :
    RootState × List StorageOp :=
  addToPortfolioSaga coin quantity storeOk
    { s with portfolio := addToPortfolioRequest s.portfolio }

/-- Dispatch of updatePortfolioItemRequest followed by the update saga. -/
def updateOp (coinId : String) (quantity : ℚ) (storeOk : Bool) (s : RootState) :
    RootState × List StorageOp :=
  updatePortfolioItemSaga coinId quantity storeOk
    { s with portfolio := updatePortfolioItemRequest s.portfolio }

/-- Dispatch of removeFromPortfolio: the reducer filters the items, then the
watching saga persists the filtered list. -/
def removeOp (coinId : String) (storeOk : Bool) (s : RootState) :
    RootState × List StorageOp :=
  removeFromPortfolioSaga coinId storeOk
    { s with portfolio := removeFromPortfolio coinId s.portfolio }

/-! ## Presentation-layer handlers -/

/-- handleAddToPortfolio of Dashboard: dispatches the add request only when
the parsed quantity is positive, silently doing nothing otherwise.  qty is
the parsed numeric quantity. -/
def handleAddToPortfolio (coin : Coin) (qty : ℚ) (storeOk : Bool)
    (s : RootState) : RootState × List StorageOp :=
  if qty > 0 then addOp coin qty storeOk s else (s, [])

/-- handleUpdateQuantity of Portfolio: parses the entered delta newQty,
and only when newQty is positive and the item exists dispatches the update
request with totalQuantity = existing quantity + newQty; otherwise it
silently does nothing. -/
def handleUpdateQuantity (coinId : String) (newQty : ℚ) (storeOk : Bool)
    (s : RootState) : RootState × List StorageOp :=
  if newQty > 0 then
    match s.portfolio.items.find? (fun item => item.coinId = coinId) with
    | some currentItem =>
      updateOp coinId (currentItem.quantity + newQty) storeOk s
    | none => (s, [])
  else (s, [])

/-! ## Derived notions used by the claims -/

/-- The item the update saga builds from an existing item, a coin and the new
total quantity (spread of the item with quantity, currentPrice and value
replaced). -/
def updatedItemOf (item : PortfolioItem) (coin : Coin) (q : ℚ) : PortfolioItem :=
  { item with
    quantity := q, currentPrice := coin.current_price,
    value := coin.current_price * q }

/-- The item updatePortfolioPrices builds when a new price is found for an
item (spread of the item with currentPrice and value replaced). -/
def repricedItemOf (item : PortfolioItem) (newPrice : ℚ) : PortfolioItem :=
  { item with currentPrice := newPrice, value := item.quantity * newPrice }

/-- Invariant of the data model: each item's value equals its quantity times
its currentPrice. -/
def ValueInvariant (s : PortfolioState) : Prop :=
  ∀ item ∈ s.items, item.value = item.quantity * item.currentPrice

/-- Runs a sequence of add operations (with reliable storage), threading the
root state and the AsyncStorage contents. -/
def runAdds (adds : List (Coin × ℚ)) (s : RootState) (storage : Storage) :
    RootState × Storage :=
  adds.foldl (fun acc cq =>
    let step := addOp cq.1 cq.2 true acc.1
    (step.1, applyStorageOps acc.2 step.2)) (s, storage)

/-! ## Concrete sample values for witnesses and counterexamples -/

def btcCoin : Coin :=
  { id := "bitcoin", name := "Bitcoin", symbol := "btc", image := "btc.png",
    current_price := 50000, price_change_percentage_24h := 2,
    market_cap := 900000000 }

def ethCoin : Coin :=
  { id := "ethereum", name := "Ethereum", symbol := "eth", image := "eth.png",
    current_price := 3000, price_change_percentage_24h := -1,
    market_cap := 400000000 }

def btcItem : PortfolioItem :=
  { coinId := "bitcoin", name := "Bitcoin", symbol := "btc",
    image := "btc.png", quantity := 3, currentPrice := 50000,
    value := 150000 }

/-- Root state holding one bitcoin portfolio item, with bitcoin present in
the fetched coin list. -/
def sampleState : RootState :=
  { auth := initialAuthState,
    crypto := { initialCryptoState with coins := [btcCoin] },
    portfolio := { initialPortfolioState with items := [btcItem] } }

/-- Root state holding one bitcoin portfolio item while the fetched coin
list is empty (bitcoin absent from crypto data). -/
def sampleStateNoCoin : RootState :=
  { auth := initialAuthState,
    crypto := initialCryptoState,
    portfolio := { initialPortfolioState with items := [btcItem] } }

/-! ## Helper lemmas -/

theorem mem_setFirst {p : PortfolioItem → Bool} {x y : PortfolioItem} :
    ∀ {l : List PortfolioItem}, y ∈ setFirst p x l → y = x ∨ y ∈ l := by
  intro l
  induction l with
  | nil => intro h; simp [setFirst] at h
  | cons z rest ih =>
    intro h
    cases hz : p z with
    | true =>
      rw [setFirst, if_pos hz] at h
      rcases List.mem_cons.mp h with h | h
      · exact Or.inl h
      · exact Or.inr (List.mem_cons_of_mem _ h)
    | false =>
      rw [setFirst, if_neg (by simp [hz])] at h
      rcases List.mem_cons.mp h with h | h
      · exact Or.inr (by simp [h])
      · rcases ih h with h' | h'
        · exact Or.inl h'
        · exact Or.inr (List.mem_cons_of_mem _ h')

theorem find?_setFirst {p : PortfolioItem → Bool} {x : PortfolioItem}
    (hx : p x = true) :
    ∀ {l : List PortfolioItem}, (l.find? p).isSome →
      (setFirst p x l).find? p = some x := by
  intro l
  induction l with
  | nil => intro h; simp [List.find?] at h
  | cons z rest ih =>
    intro h
    cases hz : p z with
    | true =>
      rw [setFirst, if_pos hz]
      exact List.find?_cons_of_pos _ hx
    | false =>
      rw [setFirst, if_neg (by simp [hz])]
      rw [List.find?_cons_of_neg _ (by simp [hz])]
      apply ih
      rw [List.find?_cons_of_neg _ (by simp [hz])] at h
      exact h

theorem objGet_objSet (k : String) (v : ℚ) (k' : String) :
    ∀ (m : List (String × ℚ)),
      objGet (objSet m k v) k' = if k' = k then some v else objGet m k' := by
  intro m
  induction m with
  | nil =>
    by_cases h : k' = k
    · simp [objSet, objGet, List.find?, h]
    · simp [objSet, objGet, List.find?, h, Ne.symm h]
  | cons kv rest ih =>
    by_cases hkv : kv.1 = k
    · rw [objSet, if_pos hkv]
      by_cases h : k' = k
      · simp [objGet, List.find?, h]
      · simp only [objGet, if_neg h]
        rw [List.find?_cons_of_neg _
            (by simp only [decide_eq_true_eq]; exact fun he => h he.symm),
          List.find?_cons_of_neg _
            (by simp only [decide_eq_true_eq, hkv]; exact fun he => h he.symm)]
    · rw [objSet, if_neg hkv]
      by_cases h : k' = k
      · rw [if_pos h]
        rw [objGet, List.find?_cons_of_neg _ (by simp [h, hkv])]
        have := ih
        rw [if_pos h] at this
        exact this
      · rw [if_neg h]
        by_cases hk' : kv.1 = k'
        · simp [objGet, List.find?_cons_of_pos, hk']
        · rw [objGet, objGet, List.find?_cons_of_neg _ (by simp [hk']),
            List.find?_cons_of_neg _ (by simp [hk'])]
          have := ih
          rw [if_neg h] at this
          exact this

theorem objGet_foldl_none (cs : List Coin) :
    ∀ (m : List (String × ℚ)) (k : String),
      objGet (cs.foldl (fun m c => objSet m c.id c.current_price) m) k = none ↔
        (objGet m k = none ∧ ∀ c ∈ cs, c.id ≠ k) := by
  induction cs with
  | nil => intro m k; simp
  | cons c rest ih =>
    intro m k
    rw [List.foldl_cons, ih]
    constructor
    · rintro ⟨h1, h2⟩
      rw [objGet_objSet] at h1
      by_cases hk : k = c.id
      · rw [if_pos hk] at h1; exact absurd h1 (by simp)
      · rw [if_neg hk] at h1
        refine ⟨h1, ?_⟩
        intro c' hc'
        rcases List.mem_cons.mp hc' with h | h
        · rw [h]; exact fun he => hk he.symm
        · exact h2 c' h
    · rintro ⟨h1, h2⟩
      have hc : c.id ≠ k := h2 c (List.mem_cons_self c rest)
      refine ⟨?_, fun c' hc' => h2 c' (List.mem_cons_of_mem _ hc')⟩
      rw [objGet_objSet, if_neg (fun he => hc he.symm)]
      exact h1

theorem objGet_foldl_some (cs : List Coin) :
    ∀ (m : List (String × ℚ)) (k : String) (q : ℚ),
      objGet (cs.foldl (fun m c => objSet m c.id c.current_price) m) k = some q →
        objGet m k = some q ∨ ∃ c ∈ cs, c.id = k ∧ c.current_price = q := by
  induction cs with
  | nil => intro m k q h; exact Or.inl h
  | cons c rest ih =>
    intro m k q h
    rw [List.foldl_cons] at h
    rcases ih _ _ _ h with h' | ⟨c', hc', hid, hq⟩
    · rw [objGet_objSet] at h'
      by_cases hk : k = c.id
      · rw [if_pos hk] at h'
        exact Or.inr ⟨c, List.mem_cons_self c rest, hk.symm,
          (Option.some.injEq _ _).mp h' |>.symm ▸ rfl⟩
      · rw [if_neg hk] at h'
        exact Or.inl h'
    · exact Or.inr ⟨c', List.mem_cons_of_mem _ hc', hid, hq⟩

theorem objGet_buildPriceMap_none (coins : List Coin) (k : String) :
    objGet (buildPriceMap coins) k = none ↔ ∀ c ∈ coins, c.id ≠ k := by
  rw [buildPriceMap, objGet_foldl_none]
  simp [objGet, List.find?]

theorem objGet_buildPriceMap_some (coins : List Coin) (k : String) (q : ℚ)
    (h : objGet (buildPriceMap coins) k = some q) :
    ∃ c ∈ coins, c.id = k ∧ c.current_price = q := by
  rcases objGet_foldl_some coins [] k q h with h' | h'
  · exact absurd h' (by simp [objGet, List.find?])
  · exact h'

theorem itemFromJson_itemToJson (item : PortfolioItem) :
    itemFromJson (itemToJson item) = some item := rfl

theorem itemsFromJsonList_map (items : List PortfolioItem) :
    itemsFromJsonList (items.map itemToJson) = some items := by
  induction items with
  | nil => rfl
  | cons item rest ih =>
    simp [itemsFromJsonList, itemFromJson_itemToJson, ih]

theorem itemsFromJson_itemsToJson (items : List PortfolioItem) :
    itemsFromJson (itemsToJson items) = some items := by
  rw [itemsToJson, itemsFromJson, itemsFromJsonList_map]

theorem filter_idem (p : PortfolioItem → Bool) (l : List PortfolioItem) :
    (l.filter p).filter p = l.filter p := by
  induction l with
  | nil => rfl
  | cons x rest ih =>
    cases hx : p x with
    | true => simp [List.filter_cons, hx, ih]
    | false => simp [List.filter_cons, hx, ih]

theorem dummy_token_ne_empty (now : Nat) :
    ("dummy_token_" ++ toString now) ≠ "" := by
  intro h
  have h' := congrArg String.length h
  rw [String.length_append] at h'
  have h12 : ("dummy_token_" : String).length = 12 := rfl
  have h0 : ("" : String).length = 0 := rfl
  omega

/-! ## Claim theorems -/

/-- C1: login succeeds, with a non-empty token and exactly one store write,
precisely for the pair (admin, admin123) under exact string comparison; every
other pair fails with the invalid-credentials error, leaving the session
unauthenticated and performing no store write. -/
theorem c1_login_credentials (username password : String) (now : Nat)
    (s : AuthState) :
    (username = "admin" ∧ password = "admin123" →
      ∃ token,
        (loginSaga username password now true s).1.isAuthenticated = true ∧
        (loginSaga username password now true s).1.token = some token ∧
        token ≠ "" ∧
        (loginSaga username password now true s).2 =
          [StorageOp.setAuthToken token]) ∧
    (¬(username = "admin" ∧ password = "admin123") →
      (loginSaga username password now true s).1.isAuthenticated = false ∧
      (loginSaga username password now true s).1.error =
        some "Invalid username or password" ∧
      (loginSaga username password now true s).1.token = none ∧
      (loginSaga username password now true s).2 = []) := by
  constructor
  · rintro ⟨hu, hp⟩
    refine ⟨"dummy_token_" ++ toString now, ?_, ?_, dummy_token_ne_empty now, ?_⟩ <;>
      simp [loginSaga, authenticateUser, HARDCODED_USERNAME, HARDCODED_PASSWORD,
        hu, hp, loginSuccess]
  · intro hne
    refine ⟨?_, ?_, ?_, ?_⟩ <;>
      simp [loginSaga, authenticateUser, HARDCODED_USERNAME, HARDCODED_PASSWORD,
        hne, loginFailure]

/-- C1 witness: concrete successful and failing logins. -/
theorem c1_login_credentials_witness :
    (∃ token,
        (loginSaga "admin" "admin123" 7 true initialAuthState).1.isAuthenticated
          = true ∧
        (loginSaga "admin" "admin123" 7 true initialAuthState).1.token
          = some token ∧
        token ≠ "" ∧
        (loginSaga "admin" "admin123" 7 true initialAuthState).2 =
          [StorageOp.setAuthToken token]) ∧
    (loginSaga "admin" "wrong" 7 true initialAuthState).1.isAuthenticated
        = false ∧
    (loginSaga "admin" "wrong" 7 true initialAuthState).2 = [] := by
  refine ⟨(c1_login_credentials "admin" "admin123" 7 initialAuthState).1
    (by exact ⟨rfl, rfl⟩), ?_, ?_⟩
  · exact ((c1_login_credentials "admin" "wrong" 7 initialAuthState).2
      (by intro h; exact absurd h.2 (by decide))).1
  · exact ((c1_login_credentials "admin" "wrong" 7 initialAuthState).2
      (by intro h; exact absurd h.2 (by decide))).2.2.2

/-- C6: a failed refresh, whether a non-2xx response or a transport failure,
surfaces a FetchError message in crypto state and leaves the in-memory coin
list and the entire portfolio (hence every item's price and value) exactly as
they were. -/
theorem c6_failed_refresh_preserves_state (statusText msg : String) (now : Nat)
    (s : RootState) :
    ((fetchCryptoDataSaga (FetchOutcome.httpError statusText) now s).crypto.coins
        = s.crypto.coins ∧
      (fetchCryptoDataSaga (FetchOutcome.httpError statusText) now s).portfolio
        = s.portfolio ∧
      (fetchCryptoDataSaga (FetchOutcome.httpError statusText) now s).crypto.error
        = some ("Failed to fetch crypto data: " ++ statusText)) ∧
    ((fetchCryptoDataSaga (FetchOutcome.transportError msg) now s).crypto.coins
        = s.crypto.coins ∧
      (fetchCryptoDataSaga (FetchOutcome.transportError msg) now s).portfolio
        = s.portfolio ∧
      (fetchCryptoDataSaga (FetchOutcome.transportError msg) now s).crypto.error
        = some msg) := by
  refine ⟨⟨?_, ?_, ?_⟩, ?_, ?_, ?_⟩ <;>
    simp [fetchCryptoDataSaga, fetchCryptoData, fetchCryptoDataFailure]

/-- C3 counterexample: invoking the add saga with quantity -1 (a value ≤ 0)
performs the mutation the claim forbids: the item is appended, storage is
written once, and no error of any kind is reported. -/
theorem c3_nonpositive_add_counterexample :
    (-1 : ℚ) ≤ 0 ∧
    initialRootState.portfolio.items.length = 0 ∧
    (addOp btcCoin (-1) true initialRootState).1.portfolio.items.length = 1 ∧
    (addOp btcCoin (-1) true initialRootState).2.length = 1 ∧
    (addOp btcCoin (-1) true initialRootState).1.portfolio.error = none := by
  exact ⟨by norm_num, rfl, rfl, rfl, rfl⟩

/-- C3 amended: the q > 0 guard lives only in the presentation layer, which
silently ignores a non-positive quantity: no mutation and no store write, but
also no ValidationError value anywhere; the saga itself does not validate. -/
theorem c3_nonpositive_add_amended (coin : Coin) (qty : ℚ) (storeOk : Bool)
    (s : RootState) (hq : qty ≤ 0) :
    handleAddToPortfolio coin qty storeOk s = (s, []) := by
  rw [handleAddToPortfolio, if_neg (not_lt.mpr hq)]

/-- C3 witness: a concrete rejected add through the presentation layer. -/
theorem c3_nonpositive_add_amended_witness :
    handleAddToPortfolio btcCoin (-1) true sampleState = (sampleState, []) :=
  c3_nonpositive_add_amended btcCoin (-1) true sampleState (by norm_num)

/-- C4 counterexample: with an existing bitcoin item of quantity 3, bitcoin
present in the coin list, and delta -1, the claim predicts the new quantity
3 + (-1); the code silently ignores every non-positive delta, leaving the
state untouched with quantity 3 and no error. -/
theorem c4_update_delta_counterexample :
    btcItem.quantity + (-1) ≠ btcItem.quantity ∧
    handleUpdateQuantity "bitcoin" (-1) true sampleState = (sampleState, []) := by
  constructor
  · show (3 : ℚ) + (-1) ≠ 3
    norm_num
  · rw [handleUpdateQuantity, if_neg (by norm_num)]

/-- C4 amended: for a positive delta d on an existing item whose coin is in
the fetched coin list, the update is additive: the item's quantity becomes
q0 + d, its price is refreshed from the coin, its value recomputed, and the
updated list is persisted; for any d ≤ 0 the handler silently does nothing —
no mutation, no store write, and no error value is produced (the claimed
ValidationError does not exist in this path). -/
theorem c4_update_additive_amended (coinId : String) (d : ℚ) (s : RootState)
    (item : PortfolioItem) (coin : Coin)
    (hitem : s.portfolio.items.find? (fun it => it.coinId = coinId) = some item)
    (hcoin : s.crypto.coins.find? (fun c => c.id = coinId) = some coin) :
    (0 < d →
      (handleUpdateQuantity coinId d true s).1.portfolio.items.find?
          (fun it => it.coinId = coinId) =
        some (updatedItemOf item coin (item.quantity + d)) ∧
      (handleUpdateQuantity coinId d true s).2 =
        [StorageOp.setPortfolio (itemsToJson (setFirst
          (fun it => it.coinId = coinId)
          (updatedItemOf item coin (item.quantity + d))
          s.portfolio.items))]) ∧
    (d ≤ 0 → handleUpdateQuantity coinId d true s = (s, [])) := by
  have hcid : item.coinId = coinId := by
    have h := List.find?_some hitem
    simpa using h
  constructor
  · intro hd
    have hrun : handleUpdateQuantity coinId d true s =
        updateOp coinId (item.quantity + d) true s := by
      rw [handleUpdateQuantity, if_pos hd, hitem]
    have hsaga : updateOp coinId (item.quantity + d) true s =
        ({ s with portfolio := updatePortfolioItemSuccess
                                 (updatedItemOf item coin (item.quantity + d))
                                 (updatePortfolioItemRequest s.portfolio) },
         [StorageOp.setPortfolio (itemsToJson (setFirst
            (fun it => it.coinId = coinId)
            (updatedItemOf item coin (item.quantity + d))
            s.portfolio.items))]) := by
      dsimp only [updateOp, updatePortfolioItemSaga, updatePortfolioItemRequest,
        updatedItemOf]
      simp only [hitem, hcoin]
      rw [if_pos trivial]
    have hupdcid :
        (updatedItemOf item coin (item.quantity + d)).coinId = coinId := hcid
    have hitems : (updatePortfolioItemSuccess
        (updatedItemOf item coin (item.quantity + d))
        (updatePortfolioItemRequest s.portfolio)).items =
        setFirst (fun it => it.coinId = coinId)
          (updatedItemOf item coin (item.quantity + d))
          s.portfolio.items := by
      dsimp only [updatePortfolioItemSuccess, updatePortfolioItemRequest]
      simp only [hupdcid, hitem, Option.isSome_some, if_pos]
    constructor
    · rw [hrun, hsaga]
      show (updatePortfolioItemSuccess
        (updatedItemOf item coin (item.quantity + d))
        (updatePortfolioItemRequest s.portfolio)).items.find?
          (fun it => it.coinId = coinId) = _
      rw [hitems]
      apply find?_setFirst
      · simp [hupdcid]
      · rw [hitem]; rfl
    · rw [hrun, hsaga]
  · intro hdle
    rw [handleUpdateQuantity, if_neg (not_lt.mpr hdle)]

/-- C4 witness: a concrete additive update (delta 2 on quantity 3) and a
concrete silently ignored non-positive delta. -/
theorem c4_update_additive_amended_witness :
    (0 : ℚ) < 2 ∧
    (handleUpdateQuantity "bitcoin" 2 true sampleState).1.portfolio.items.find?
        (fun it => it.coinId = "bitcoin") =
      some (updatedItemOf btcItem btcCoin (btcItem.quantity + 2)) ∧
    handleUpdateQuantity "bitcoin" (-2) true sampleState = (sampleState, []) := by
  refine ⟨by norm_num, ?_, ?_⟩
  · exact ((c4_update_additive_amended "bitcoin" 2 sampleState btcItem btcCoin
      rfl rfl).1 (by norm_num)).1
  · exact (c4_update_additive_amended "bitcoin" (-2) sampleState btcItem btcCoin
      rfl rfl).2 (by norm_num)

/-- C5: after a successful refresh with coin list C, every portfolio item
(looked at positionally) whose coinId occurs in C gets currentPrice set to
the matching coin's current price and value recomputed as quantity times
that price, with every other field and the item order preserved; every item
whose coinId does not occur in C is left completely unchanged. -/
theorem c5_refresh_reprices_matching (coins : List Coin) (now : Nat)
    (s : RootState) (i : Nat) (item : PortfolioItem)
    (hi : s.portfolio.items[i]? = some item) :
    (fetchCryptoDataSaga (FetchOutcome.success coins) now s).crypto.coins
      = coins ∧
    (fetchCryptoDataSaga (FetchOutcome.success coins) now s).portfolio.items.length
      = s.portfolio.items.length ∧
    ((∀ c ∈ coins, c.id ≠ item.coinId) →
      (fetchCryptoDataSaga (FetchOutcome.success coins) now s).portfolio.items[i]?
        = some item) ∧
    ((∃ c ∈ coins, c.id = item.coinId) →
      ∃ c ∈ coins, c.id = item.coinId ∧
        (fetchCryptoDataSaga (FetchOutcome.success coins) now s).portfolio.items[i]?
          = some (repricedItemOf item c.current_price)) := by
  refine ⟨?_, ?_, ?_, ?_⟩
  · dsimp only [fetchCryptoDataSaga, fetchCryptoData]
    split
    · rfl
    · rfl
  · dsimp only [fetchCryptoDataSaga, fetchCryptoData]
    split
    · dsimp only [updatePortfolioPrices]
      exact List.length_map _ _
    · rfl
  · intro habs
    have hnone : objGet (buildPriceMap coins) item.coinId = none :=
      (objGet_buildPriceMap_none coins item.coinId).mpr habs
    dsimp only [fetchCryptoDataSaga, fetchCryptoData]
    split
    · dsimp only [updatePortfolioPrices]
      rw [List.getElem?_map, hi, Option.map_some']
      rw [hnone]
    · exact hi
  · rintro ⟨c0, hc0, hid0⟩
    have hsome : objGet (buildPriceMap coins) item.coinId ≠ none := by
      rw [Ne, objGet_buildPriceMap_none]
      push_neg
      exact ⟨c0, hc0, hid0⟩
    rcases hp : objGet (buildPriceMap coins) item.coinId with _ | p
    · exact absurd hp hsome
    · rcases objGet_buildPriceMap_some coins item.coinId p hp with
        ⟨c, hc, hcid', hcp⟩
      refine ⟨c, hc, hcid', ?_⟩
      dsimp only [fetchCryptoDataSaga, fetchCryptoData]
      split
      · dsimp only [updatePortfolioPrices]
        rw [List.getElem?_map, hi, Option.map_some']
        rw [hp, repricedItemOf, hcp]
      · rw [List.getElem?_eq_none (by omega)] at hi
        exact absurd hi (by simp)

/-- C5 witness: a concrete refresh that misses the held coin leaves the item
unchanged, and one that contains it reprices it. -/
theorem c5_refresh_reprices_matching_witness :
    (fetchCryptoDataSaga (FetchOutcome.success [ethCoin]) 3
        sampleState).portfolio.items[0]? = some btcItem ∧
    (∃ c ∈ [btcCoin], c.id = btcItem.coinId ∧
      (fetchCryptoDataSaga (FetchOutcome.success [btcCoin]) 3
          sampleState).portfolio.items[0]? =
        some (repricedItemOf btcItem c.current_price)) := by
  constructor
  · exact (c5_refresh_reprices_matching [ethCoin] 3 sampleState 0 btcItem
      rfl).2.2.1 (by decide)
  · exact (c5_refresh_reprices_matching [btcCoin] 3 sampleState 0 btcItem
      rfl).2.2.2 ⟨btcCoin, List.mem_singleton.mpr rfl, rfl⟩

/-- C8: every portfolio reachable by a sequence of add operations from the
empty initial state with reliable storage round-trips through persistence:
loading the stored value on a fresh instance reproduces the in-memory item
list exactly. -/
theorem c8_add_roundtrip (adds : List (Coin × ℚ)) :
    (loadPortfolioFromStorageSaga (runAdds adds initialRootState initialStorage).2
        initialRootState).portfolio.items =
      (runAdds adds initialRootState initialStorage).1.portfolio.items := by
  have haddsync : ∀ (coin : Coin) (q : ℚ) (s : RootState) (st : Storage),
      (applyStorageOps st (addOp coin q true s).2).portfolio =
        some (itemsToJson (addOp coin q true s).1.portfolio.items) := by
    intro coin q s st
    rfl
  have hsync : ∀ (s : RootState) (st : Storage),
      (st.portfolio = some (itemsToJson s.portfolio.items) ∨
        (st.portfolio = none ∧ s.portfolio.items = [])) →
      (runAdds adds s st).2.portfolio =
          some (itemsToJson (runAdds adds s st).1.portfolio.items) ∨
        ((runAdds adds s st).2.portfolio = none ∧
          (runAdds adds s st).1.portfolio.items = []) := by
    induction adds with
    | nil => intro s st h; exact h
    | cons cq rest ih =>
      intro s st h
      show (runAdds rest (addOp cq.1 cq.2 true s).1
          (applyStorageOps st (addOp cq.1 cq.2 true s).2)).2.portfolio = _ ∨ _
      exact ih _ _ (Or.inl (haddsync cq.1 cq.2 s st))
  rcases hsync initialRootState initialStorage (Or.inr ⟨rfl, rfl⟩) with h | ⟨h1, h2⟩
  · dsimp only [loadPortfolioFromStorageSaga, loadPortfolioFromStorage]
    rw [h]
    simp [itemsFromJson_itemsToJson]
  · dsimp only [loadPortfolioFromStorageSaga, loadPortfolioFromStorage]
    rw [h1, h2]
    rfl

/-- C9: remove is total and idempotent: after it no item with the given id
remains, all items with other ids survive, no error is produced even when the
id is absent or storage fails, an absent id leaves the item list untouched,
and applying the operation twice equals applying it once. -/
theorem c9_remove_total_idempotent (coinId : String) (storeOk : Bool)
    (s : RootState) :
    (∀ item ∈ (removeOp coinId storeOk s).1.portfolio.items,
      item.coinId ≠ coinId) ∧
    (∀ item ∈ s.portfolio.items, item.coinId ≠ coinId →
      item ∈ (removeOp coinId storeOk s).1.portfolio.items) ∧
    (removeOp coinId storeOk s).1.portfolio.error = s.portfolio.error ∧
    ((∀ item ∈ s.portfolio.items, item.coinId ≠ coinId) →
      (removeOp coinId storeOk s).1.portfolio.items = s.portfolio.items) ∧
    removeOp coinId storeOk (removeOp coinId storeOk s).1 =
      removeOp coinId storeOk s := by
  have hfst : (removeOp coinId storeOk s).1 =
      { s with portfolio := removeFromPortfolio coinId s.portfolio } := by
    cases storeOk with
    | true => rfl
    | false => rfl
  have hfi := filter_idem (fun item => item.coinId ≠ coinId) s.portfolio.items
  refine ⟨?_, ?_, ?_, ?_, ?_⟩
  · intro item hmem
    rw [hfst] at hmem
    have h := List.mem_filter.mp hmem
    simpa using h.2
  · intro item hmem hne
    rw [hfst]
    exact List.mem_filter.mpr ⟨hmem, by simpa using hne⟩
  · rw [hfst]; rfl
  · intro habs
    rw [hfst]
    exact List.filter_eq_self.mpr (by intro a ha; simpa using habs a ha)
  · rw [hfst]
    cases storeOk with
    | true =>
      dsimp only [removeOp, removeFromPortfolioSaga, removeFromPortfolio]
      rw [if_pos rfl, if_pos rfl]
      simp only [hfi]
    | false =>
      dsimp only [removeOp, removeFromPortfolioSaga, removeFromPortfolio]
      rw [if_neg (by simp), if_neg (by simp)]
      simp only [hfi]

/-- C9 witness: removing an absent coin is a no-op on the items, and a
concrete double removal equals the single removal. -/
theorem c9_remove_total_idempotent_witness :
    (removeOp "ethereum" true sampleState).1.portfolio.items =
      sampleState.portfolio.items ∧
    removeOp "bitcoin" true (removeOp "bitcoin" true sampleState).1 =
      removeOp "bitcoin" true sampleState := by
  refine ⟨(c9_remove_total_idempotent "ethereum" true sampleState).2.2.2.1 ?_,
    (c9_remove_total_idempotent "bitcoin" true sampleState).2.2.2.2⟩
  intro item hmem
  have : item = btcItem := by
    rcases List.mem_cons.mp hmem with h | h
    · exact h
    · exact absurd h (List.not_mem_nil item)
  rw [this]
  decide

/-- C7 counterexample: with failing storage, add(btc, 1) surfaces the save
error but the in-memory item list does NOT contain the added entry — the
in-memory commit happens after persistence, so the claimed kept entry is
absent. -/
theorem c7_persistence_failure_counterexample :
    (0 : ℚ) < 1 ∧
    (addOp btcCoin 1 false initialRootState).1.portfolio.items = [] ∧
    (addOp btcCoin 1 false initialRootState).1.portfolio.error =
      some "Failed to save portfolio to AsyncStorage" := by
  exact ⟨by norm_num, rfl, rfl⟩

/-- C7 amended: a persistence failure during add surfaces the storage error
message and leaves the in-memory item list unchanged — the entry is not
added, because the saga persists before dispatching the in-memory success
action; no store write occurs. -/
theorem c7_persistence_failure_amended (coin : Coin) (q : ℚ) (s : RootState) :
    (addOp coin q false s).1.portfolio.items = s.portfolio.items ∧
    (addOp coin q false s).1.portfolio.error =
      some "Failed to save portfolio to AsyncStorage" ∧
    (addOp coin q false s).2 = [] := by
  exact ⟨rfl, rfl, rfl⟩

/-- C10: updating the quantity of an item that exists in the portfolio while
its coin is absent from the fetched coin list fails with the message
"Coin not found in crypto data", leaving the item list unchanged and writing
nothing to storage. -/
theorem c10_update_missing_coin (coinId : String) (q : ℚ) (storeOk : Bool)
    (s : RootState) (item : PortfolioItem)
    (hitem : s.portfolio.items.find? (fun it => it.coinId = coinId) = some item)
    (hcoin : ∀ c ∈ s.crypto.coins, c.id ≠ coinId) :
    (updateOp coinId q storeOk s).1.portfolio.items = s.portfolio.items ∧
    (updateOp coinId q storeOk s).1.portfolio.error =
      some "Coin not found in crypto data" ∧
    (updateOp coinId q storeOk s).2 = [] := by
  have hfind : s.crypto.coins.find? (fun c => c.id = coinId) = none :=
    List.find?_eq_none.mpr (by intro c hc; simp [hcoin c hc])
  refine ⟨?_, ?_, ?_⟩ <;>
    simp [updateOp, updatePortfolioItemSaga, updatePortfolioItemRequest,
      hitem, hfind, portfolioFailure]

/-- C2: the derived-value invariant (value = quantity * currentPrice for
every item) is preserved by the add operation, the update operation, and any
refresh outcome — in particular by the price propagation a successful
refresh triggers. -/
theorem c2_value_invariant_preserved (s : RootState)
    (hs : ValueInvariant s.portfolio) :
    (∀ coin q storeOk, ValueInvariant (addOp coin q storeOk s).1.portfolio) ∧
    (∀ coinId q storeOk,
      ValueInvariant (updateOp coinId q storeOk s).1.portfolio) ∧
    (∀ outcome now,
      ValueInvariant (fetchCryptoDataSaga outcome now s).portfolio) := by
  refine ⟨?_, ?_, ?_⟩
  · intro coin q storeOk y hy
    unfold addOp addToPortfolioSaga at hy
    dsimp only at hy
    split at hy
    · simp only [addToPortfolioSuccess] at hy
      split at hy
      · rcases mem_setFirst hy with rfl | hmem
        · exact mul_comm _ _
        · exact hs y hmem
      · rcases List.mem_append.mp hy with hmem | hmem
        · exact hs y hmem
        · rcases List.mem_cons.mp hmem with rfl | h
          · exact mul_comm _ _
          · exact absurd h (List.not_mem_nil y)
    · exact hs y hy
  · intro coinId q storeOk y hy
    unfold updateOp updatePortfolioItemSaga at hy
    dsimp only at hy
    split at hy
    · exact hs y hy
    · split at hy
      · exact hs y hy
      · split at hy
        · simp only [updatePortfolioItemSuccess] at hy
          split at hy
          · rcases mem_setFirst hy with rfl | hmem
            · exact mul_comm _ _
            · exact hs y hmem
          · exact hs y hy
        · exact hs y hy
  · intro outcome now y hy
    unfold fetchCryptoDataSaga at hy
    dsimp only at hy
    split at hy
    · exact hs y hy
    · split at hy
      · simp only [updatePortfolioPrices] at hy
        rcases List.mem_map.mp hy with ⟨x, hx, hxy⟩
        rcases hobj : objGet (buildPriceMap _) x.coinId with _ | newPrice
        · rw [hobj] at hxy
          rw [← hxy]
          exact hs x hx
        · rw [hobj] at hxy
          rw [← hxy]
      · exact hs y hy

/-- C2 witness: the invariant holds of the sample state and is preserved by a
concrete add, update, and refresh. -/
theorem c2_value_invariant_preserved_witness :
    ValueInvariant sampleState.portfolio ∧
    ValueInvariant (addOp ethCoin 2 true sampleState).1.portfolio ∧
    ValueInvariant (updateOp "bitcoin" 4 true sampleState).1.portfolio ∧
    ValueInvariant
      (fetchCryptoDataSaga (FetchOutcome.success [ethCoin]) 9 sampleState).portfolio := by
  have hs : ValueInvariant sampleState.portfolio := by
    intro item hmem
    simp only [sampleState, initialPortfolioState] at hmem
    rcases List.mem_cons.mp hmem with rfl | h
    · show btcItem.value = btcItem.quantity * btcItem.currentPrice
      rw [btcItem]
      norm_num
    · exact absurd h (List.not_mem_nil item)
  have h := c2_value_invariant_preserved sampleState hs
  exact ⟨hs, h.1 ethCoin 2 true, h.2.1 "bitcoin" 4 true,
    h.2.2 (FetchOutcome.success [ethCoin]) 9⟩

/-- C10 witness: a portfolio holding bitcoin while the coin list is empty. -/
theorem c10_update_missing_coin_witness :
    (updateOp "bitcoin" 5 true sampleStateNoCoin).1.portfolio.items =
      sampleStateNoCoin.portfolio.items ∧
    (updateOp "bitcoin" 5 true sampleStateNoCoin).1.portfolio.error =
      some "Coin not found in crypto data" ∧
    (updateOp "bitcoin" 5 true sampleStateNoCoin).2 = [] :=
  c10_update_missing_coin "bitcoin" 5 true sampleStateNoCoin btcItem (by decide)
    (by intro c hc; simp [sampleStateNoCoin, initialCryptoState] at hc)

end CryptoTracker
